import Mathlib

/- Shallow embedding of the upfall RAG service: the chat orchestration
   (src/chat/chat.service.ts) and the ingestion pipeline
   (src/ingestion/ingestion.service.ts). External collaborators (the PDF
   loader, the embedding provider, the Chroma store, the language model and
   the text splitter) are parameters of the embedded functions. -/

/-- A langchain Document as this code uses it: only pageContent is ever read
(in the ragChain context formatter). -/
structure Document where
  pageContent : String
  deriving Repr, DecidableEq

/-- RAGState from chat.service.ts: question, retrieved documents, answer. -/
structure RAGState where
  question : String
  documents : List Document
  answer : String
  deriving Repr, DecidableEq

/-- JavaScript string truthiness fallback a-or-else-b: the empty string is
falsy, every other string is returned unchanged. -/
def strOr (a b : String) : String := if a = "" then b else a

/-- A rendered chat prompt: the system turn and the human turn. -/
structure Prompt where
  system : String
  human : String
  deriving Repr, DecidableEq

/-- The fixed refusal sentence embedded in the system template of
initializeGraph (chat.service.ts lines 69-79). -/
def refusalText : String :=
  "죄송하지만, 제가 참조할 수 있는 문서에서는 해당 내용을 찾을 수 없습니다."

/-- The fixed system instruction of promptTemplate, before the context block,
as concatenated in the source. -/
def systemInstruction : String :=
  "당신은 제공된 문서를 참조하여 사용자의 질문에 답변하는 전문가 챗봇입니다. " ++
    "사용자에게 제공된 <Context> 내에서만 답변해야 합니다. " ++
    "만약 <Context>에서 답변을 찾을 수 없다면, " ++
    "**\"" ++ refusalText ++ "\"**라고 답변하세요."

/-- Rendering the system message of promptTemplate: the context slot inside
the Context block is filled with the formatted documents. -/
def renderSystem (context : String) : String :=
  systemInstruction ++ "\n\n<Context>\n" ++ context ++ "\n</Context>"

/-- JavaScript array joining with a separator. -/
def joinSep (sep : String) : List String → String
  | [] => ""
  | [s] => s
  | s :: t :: rest => s ++ sep ++ joinSep sep (t :: rest)

/-- The context formatter of ragChain: the pageContent of each retrieved
document, joined by a blank line. -/
def formatContext (docs : List Document) : String :=
  joinSep "\n\n" (docs.map Document.pageContent)

/-- The input object the generate node hands to ragChain. -/
structure RagChainInput where
  question : String
  documents : List Document
  answer : String
  deriving Repr, DecidableEq

/-- The prompt ragChain renders before calling the model: its first map step
reads only the documents (into the context slot) and the question. -/
def chainPrompt (input : RagChainInput) : Prompt :=
  { system := renderSystem (formatContext input.documents), human := input.question }

/-- ragChain: render the template from the input, call the model, parse the
output to a string; the model is an external parameter. -/
def ragChain (model : Prompt → String) (input : RagChainInput) : String :=
  model (chainPrompt input)

/-- The retrieve node: fetch documents for the current question and spread the
rest of the state unchanged. -/
def retrieveNode (retriever : String → List Document) (state : RAGState) : RAGState :=
  { state with documents := retriever state.question }

/-- The generate node: run ragChain on question, documents and
answer-or-empty, and store the produced answer. -/
def generateNode (model : Prompt → String) (state : RAGState) : RAGState :=
  { state with
    answer := ragChain model
      { question := state.question, documents := state.documents,
        answer := strOr state.answer "" } }

/-- The node names of the LangGraph state graph, with the START and END
sentinels. -/
inductive GraphNode where
  | START
  | retrieve
  | generate
  | END
  deriving Repr, DecidableEq, BEq

/-- The edges added by initializeGraph: START to retrieve, retrieve to
generate, generate to END. -/
def graphEdges : List (GraphNode × GraphNode) :=
  [(GraphNode.START, GraphNode.retrieve),
   (GraphNode.retrieve, GraphNode.generate),
   (GraphNode.generate, GraphNode.END)]

/-- The transition function a node name denotes; the sentinels do nothing. -/
def nodeFun (retriever : String → List Document) (model : Prompt → String) :
    GraphNode → RAGState → RAGState
  | GraphNode.retrieve => retrieveNode retriever
  | GraphNode.generate => generateNode model
  | GraphNode.START => id
  | GraphNode.END => id

/-- The successor of a node along graphEdges, if any. -/
def nextNode (n : GraphNode) : Option GraphNode :=
  (graphEdges.find? (fun e => e.1 == n)).map Prod.snd

/-- Executing the compiled graph: starting at a node, repeatedly step to the
successor and apply its transition function, with fuel bounding the walk. -/
def runFrom (retriever : String → List Document) (model : Prompt → String) :
    Nat → GraphNode → RAGState → RAGState
  | 0, _, state => state
  | fuel + 1, n, state =>
    match nextNode n with
    | none => state
    | some m => runFrom retriever model fuel m (nodeFun retriever model m state)

/-- Invoking the compiled graph: walk from START. -/
def graphInvoke (retriever : String → List Document) (model : Prompt → String)
    (state : RAGState) : RAGState :=
  runFrom retriever model graphEdges.length GraphNode.START state

/-- The mutable service state of ChatService: the compiled graph stays null
until initializeGraph has run at the end of onModuleInit. -/
structure ChatService where
  graph : Option (RAGState → RAGState)

/-- The error chat throws when the graph is not yet compiled (the message
"Chat graph not initialized." in the source; the NotInitializedError of the
spec taxonomy). -/
inductive ChatError where
  | notInitialized
  deriving Repr, DecidableEq

/-- Phase 2 of onModuleInit, initializeGraph: compile the graph over the bound
retriever and the model, and store it on the service. -/
def initializeGraph (retriever : String → List Document) (model : Prompt → String)
    (svc : ChatService) : ChatService :=
  { svc with graph := some (graphInvoke retriever model) }

/-- chat: fail when the graph is absent; otherwise run a fresh initial state
through the compiled graph and return its answer, substituting the fixed
placeholder when the answer is empty. -/
def ChatService.chat (svc : ChatService) (question : String) : Except ChatError String :=
  match svc.graph with
  | none => Except.error ChatError.notInitialized
  | some g =>
    let initialState : RAGState := { question := question, documents := [], answer := "" }
    let result := g initialState
    Except.ok (strOr result.answer "답변을 생성하지 못하였습니다.")

/-- Connection arguments handed to the Chroma client: collection name and
endpoint url. -/
structure ChromaConnectConfig where
  collectionName : String
  url : String
  deriving Repr, DecidableEq

/-- COLLECTION_NAME of ChatService. -/
def ChatService.COLLECTION_NAME : String := "test_collection_name"

/-- The url ChatService passes to Chroma.fromExistingCollection. -/
def chatChromaUrl : String := "http://host.docker.internal:8000"

/-- The config initializeRetriever binds the retriever with. -/
def chatRetrieverConfig : ChromaConnectConfig :=
  { collectionName := ChatService.COLLECTION_NAME, url := chatChromaUrl }

/-- COLLECTION_NAME of IngestionService. -/
def IngestionService.COLLECTION_NAME : String := "test_collection_name"

/-- VECTOR_STORE_PATH of IngestionService; only used in the summary string. -/
def IngestionService.VECTOR_STORE_PATH : String := "chroma_data"

/-- The url IngestionService passes to Chroma.fromDocuments. -/
def ingestionChromaUrl : String := "http://host.docker.internal:8000"

/-- The config embedAndStore writes with. -/
def ingestionStoreConfig : ChromaConnectConfig :=
  { collectionName := IngestionService.COLLECTION_NAME, url := ingestionChromaUrl }

/-- embedAndStore: embed every chunk document and append the pairs to the
collection; Chroma.fromDocuments has append semantics, nothing is deleted. -/
def embedAndStore {α : Type} (embed : Document → α) (store : List (Document × α))
    (docs : List Document) : List (Document × α) :=
  store ++ docs.map (fun d => (d, embed d))

/-- The summary string runIngestion returns on completion. -/
def ingestionMessage (chunkCount : Nat) : String :=
  "✅ Ingestion Complete! " ++ toString chunkCount ++
    " chunks stored in ChromaDB at " ++ IngestionService.VECTOR_STORE_PATH ++ "."

/-- runIngestion: load the documents (an external call whose failure
propagates), split them with the external splitter, embed and store, then
return the summary. The body raises no error of its own and performs no
emptiness check on the loaded documents. -/
def runIngestion {ε α : Type} (loadResult : Except ε (List Document))
    (splitter : List Document → List Document) (embed : Document → α)
    (store : List (Document × α)) : Except ε (String × List (Document × α)) :=
  match loadResult with
  | Except.error e => Except.error e
  | Except.ok docs =>
    let splitDocs := splitter docs
    Except.ok (ingestionMessage splitDocs.length, embedAndStore embed store splitDocs)

/-- Modelled from the spec: the Document of the spec data model (section 3),
as the ChunkSplitter sees it; the text is a character list. The repository
delegates splitting to the external RecursiveCharacterTextSplitter, whose
code is not part of this repository. -/
structure SourceDocument where
  id : String
  content : List Char
  metadata : List (String × String)
  deriving Repr, DecidableEq

/-- Modelled from the spec: the Chunk of the spec data model (section 3). -/
structure Chunk where
  sourceDocumentId : String
  text : List Char
  sequenceIndex : Nat
  overlapWithPrevious : Nat
  deriving Repr, DecidableEq

/-- Modelled from the spec: the hard character slicing the boundary algorithm
of section 4.1 falls back to when no separator can shrink an oversized unit —
the text is cut into consecutive slices of at most n characters, and the
slices concatenate back to the original text. -/
def hardSlice (n : Nat) (hn : 0 < n) (xs : List Char) : List (List Char) :=
  if h : xs = [] then []
  else xs.take n :: hardSlice n hn (xs.drop n)
termination_by xs.length
decreasing_by
  have hx : 0 < xs.length := List.length_pos.mpr h
  simp only [List.length_drop]
  omega

/-- Whether the first list is an initial run of the second. -/
def leadsWith : List Char → List Char → Bool
  | [], _ => true
  | _ :: _, [] => false
  | a :: as, b :: bs => a == b && leadsWith as bs

/-- Modelled from the spec: splitting a text on one separator (section 4.1).
The accumulator holds the current unit reversed; each occurrence of the
separator ends a unit, and the separator stays attached to the unit it ends,
so that no information is dropped. -/
def splitGo (sep acc xs : List Char) : List (List Char) :=
  match xs with
  | [] => if acc = [] then [] else [acc.reverse]
  | c :: rest =>
    if h : sep ≠ [] ∧ leadsWith sep (c :: rest) = true then
      (acc.reverse ++ sep) :: splitGo sep [] ((c :: rest).drop sep.length)
    else
      splitGo sep (c :: acc) rest
termination_by xs.length
decreasing_by
  · simp only [List.length_drop, List.length_cons]
    have hs : 0 < sep.length := List.length_pos.mpr h.1
    omega
  · simp only [List.length_cons]
    omega

/-- The separator-delimited units of a text, separators kept. -/
def splitKeepSep (sep xs : List Char) : List (List Char) := splitGo sep [] xs

/-- Modelled from the spec: the recursive separator descent of section 4.1 —
split the text into units on the current separator; a unit within chunkSize
stands, a unit that still exceeds chunkSize is split again at the next
separator level, and when no separator is left the hard character slicing
takes over. -/
def pieces (chunkSize : Nat) (hcs : 0 < chunkSize) :
    List (List Char) → List Char → List (List Char)
  | [], xs => hardSlice chunkSize hcs xs
  | s :: rest, xs =>
    ((splitKeepSep s xs).map
      (fun u => if u.length ≤ chunkSize then [u] else pieces chunkSize hcs rest u)).flatten

/-- Greedy packing step: extend the chunk under construction with the next
unit while the result stays within chunkSize, otherwise emit it and start a
new chunk from that unit. -/
def packGo (chunkSize : Nat) (acc : List Char) : List (List Char) → List (List Char)
  | [] => [acc]
  | u :: rest =>
    if acc.length + u.length ≤ chunkSize then packGo chunkSize (acc ++ u) rest
    else acc :: packGo chunkSize u rest

/-- Modelled from the spec: greedily pack the largest run of units that fits
within chunkSize into each chunk boundary (section 4.1). -/
def packGreedy (chunkSize : Nat) : List (List Char) → List (List Char)
  | [] => []
  | u :: rest => packGo chunkSize u rest

/-- Modelled from the spec: the descending priority list of separators of
section 4.1 — paragraph break, line break, sentence terminator, whitespace —
followed by the hard-slicing fallback once the list is exhausted. -/
def separators : List (List Char) :=
  [['\n', '\n'], ['\n'], ['.', ' '], [' ']]

/-- Modelled from the spec: chunk boundary production (section 4.1) — the
recursive separator descent yields units, and greedy packing merges them into
boundaries; deterministic by construction. -/
def boundaries (chunkSize : Nat) (hcs : 0 < chunkSize) (xs : List Char) :
    List (List Char) :=
  packGreedy chunkSize (pieces chunkSize hcs separators xs)

/-- The last k characters of a list. -/
def lastN (k : Nat) (xs : List Char) : List Char := xs.drop (xs.length - k)

/-- Modelled from the spec: once boundaries are fixed, chunkOverlap characters
from the end of the previous segment are reinserted at the start of the next
chunk (section 4.1); each chunk records the overlap length actually added and
a strictly increasing sequence index. -/
def buildChunks (docId : String) (k : Nat) :
    Option (List Char) → Nat → List (List Char) → List Chunk
  | _, _, [] => []
  | none, idx, s :: rest =>
    { sourceDocumentId := docId, text := s, sequenceIndex := idx,
      overlapWithPrevious := 0 } :: buildChunks docId k (some s) (idx + 1) rest
  | some p, idx, s :: rest =>
    { sourceDocumentId := docId, text := lastN k p ++ s, sequenceIndex := idx,
      overlapWithPrevious := (lastN k p).length }
      :: buildChunks docId k (some s) (idx + 1) rest

/-- The non-overlap region of a chunk: its text minus the reinserted overlap
prefix. -/
def Chunk.nonOverlap (c : Chunk) : List Char := c.text.drop c.overlapWithPrevious

/-- Modelled from the spec: split(document, chunkSize, chunkOverlap) of
section 4.1, with the input constraint chunkOverlap strictly below chunkSize —
produce boundaries by separator descent and greedy packing, then reinsert the
overlap from each previous boundary. -/
def splitDoc (chunkSize chunkOverlap : Nat) (h : chunkOverlap < chunkSize)
    (d : SourceDocument) : List Chunk :=
  buildChunks d.id chunkOverlap none 0
    (boundaries chunkSize (by omega) d.content)

/-- The splitter under the fixed ingestion configuration: chunkSize 1000 and
chunkOverlap 200 (ingestion.service.ts lines 51-54). -/
def splitFixed (d : SourceDocument) : List Chunk := splitDoc 1000 200 (by omega) d

/-- A concrete one-sentence source document (the end-to-end scenario text). -/
def parisDoc0 : SourceDocument :=
  { id := "d0", content := "Paris is the capital of France.".toList, metadata := [] }

/-- The same content under a different document id. -/
def parisDoc1 : SourceDocument :=
  { id := "d1", content := "Paris is the capital of France.".toList, metadata := [] }

/-- The hard slices of a text concatenate back to the text. -/
theorem hardSlice_flatten (n : Nat) (hn : 0 < n) (xs : List Char) :
    (hardSlice n hn xs).flatten = xs := by
  rw [hardSlice]
  split
  · simp_all
  · rename_i h
    rw [List.flatten_cons, hardSlice_flatten n hn (xs.drop n)]
    exact List.take_append_drop n xs
termination_by xs.length
decreasing_by
  rename_i hne
  have hx : 0 < xs.length := List.length_pos.mpr hne
  simp only [List.length_drop]
  omega

/-- A list that leads with sep is sep followed by its remainder. -/
theorem leadsWith_append_drop (sep xs : List Char) (h : leadsWith sep xs = true) :
    sep ++ xs.drop sep.length = xs := by
  induction sep generalizing xs with
  | nil => simp
  | cons a as ih =>
    cases xs with
    | nil => simp [leadsWith] at h
    | cons b bs =>
      simp only [leadsWith, Bool.and_eq_true, beq_iff_eq] at h
      obtain ⟨rfl, h2⟩ := h
      simp only [List.length_cons, List.drop_succ_cons, List.cons_append,
        List.cons.injEq, true_and]
      exact ih bs h2

/-- Splitting on one separator drops no character: the units concatenate to
the accumulator followed by the remaining text. -/
theorem splitGo_flatten (sep acc xs : List Char) :
    (splitGo sep acc xs).flatten = acc.reverse ++ xs := by
  cases xs with
  | nil =>
    rw [splitGo]
    split
    · rename_i ha
      simp [ha]
    · simp
  | cons c rest =>
    rw [splitGo]
    split
    · rename_i h
      rw [List.flatten_cons, splitGo_flatten sep [] ((c :: rest).drop sep.length)]
      rw [List.reverse_nil, List.nil_append, List.append_assoc,
        leadsWith_append_drop sep (c :: rest) h.2]
    · rw [splitGo_flatten sep (c :: acc) rest]
      simp
termination_by xs.length
decreasing_by
  all_goals
    first
    | (simp only [List.length_cons]
       omega)
    | (rename_i h
       have hs : 0 < sep.length := List.length_pos.mpr h.1
       simp only [List.length_drop, List.length_cons]
       omega)

/-- The separator-delimited units concatenate back to the text. -/
theorem splitKeepSep_flatten (sep xs : List Char) :
    (splitKeepSep sep xs).flatten = xs := by
  rw [splitKeepSep, splitGo_flatten]
  rfl

/-- A non-empty text yields at least one unit. -/
theorem splitKeepSep_ne_nil (sep xs : List Char) (h : xs ≠ []) :
    splitKeepSep sep xs ≠ [] := by
  intro hc
  have hf := splitKeepSep_flatten sep xs
  rw [hc] at hf
  exact h hf.symm

/-- A member of a list of lists is no longer than the flattened list. -/
theorem length_le_flatten (u : List Char) (l : List (List Char)) (hu : u ∈ l) :
    u.length ≤ l.flatten.length := by
  induction l with
  | nil => simp at hu
  | cons a t ih =>
    rcases List.mem_cons.mp hu with rfl | hm
    · simp
    · have := ih hm
      simp only [List.flatten_cons, List.length_append]
      omega

/-- Flattening a pointwise-lossless refinement of units loses nothing. -/
theorem flatten_map_flatten (f : List Char → List (List Char))
    (l : List (List Char)) (hf : ∀ u ∈ l, (f u).flatten = u) :
    ((l.map f).flatten).flatten = l.flatten := by
  induction l with
  | nil => rfl
  | cons u t ih =>
    simp only [List.map_cons, List.flatten_cons, List.flatten_append]
    rw [hf u (by simp), ih (fun v hv => hf v (by simp [hv]))]

/-- Wrapping every unit as a singleton and flattening is the identity. -/
theorem flatten_map_single (l : List (List Char)) :
    (l.map (fun u => [u])).flatten = l := by
  induction l with
  | nil => rfl
  | cons u t ih => simp [ih]

/-- The separator descent drops no character at any level. -/
theorem pieces_flatten (n : Nat) (hn : 0 < n) (seps : List (List Char))
    (xs : List Char) : (pieces n hn seps xs).flatten = xs := by
  induction seps generalizing xs with
  | nil => rw [pieces]; exact hardSlice_flatten n hn xs
  | cons s rest ih =>
    have hf : ∀ u ∈ splitKeepSep s xs,
        ((fun u => if u.length ≤ n then [u] else pieces n hn rest u) u).flatten = u := by
      intro u hu
      by_cases hle : u.length ≤ n
      · simp [hle]
      · simp [hle, ih u]
    rw [pieces, flatten_map_flatten _ _ hf, splitKeepSep_flatten]

/-- A text within chunkSize is never cut by the descent: every unit already
fits, so the descent returns exactly the separator-delimited units. -/
theorem pieces_small (n : Nat) (hn : 0 < n) (s : List Char)
    (rest : List (List Char)) (xs : List Char) (hlen : xs.length ≤ n) :
    pieces n hn (s :: rest) xs = splitKeepSep s xs := by
  have hsmall : ∀ u ∈ splitKeepSep s xs, u.length ≤ n := by
    intro u hu
    have h1 := length_le_flatten u (splitKeepSep s xs) hu
    rw [splitKeepSep_flatten] at h1
    omega
  have hmap : (splitKeepSep s xs).map
      (fun u => if u.length ≤ n then [u] else pieces n hn rest u) =
        (splitKeepSep s xs).map (fun u => [u]) :=
    List.map_congr_left (fun u hu => by simp [hsmall u hu])
  rw [pieces, hmap]
  exact flatten_map_single _

/-- Greedy packing drops no character. -/
theorem packGo_flatten (n : Nat) (acc : List Char) (us : List (List Char)) :
    (packGo n acc us).flatten = acc ++ us.flatten := by
  induction us generalizing acc with
  | nil => simp [packGo]
  | cons u rest ih =>
    rw [packGo]
    split
    · rw [ih (acc ++ u)]
      simp
    · simp [ih u]

/-- Greedy packing preserves the concatenation of the units. -/
theorem packGreedy_flatten (n : Nat) (us : List (List Char)) :
    (packGreedy n us).flatten = us.flatten := by
  cases us with
  | nil => rfl
  | cons u rest =>
    rw [packGreedy, packGo_flatten]
    simp

/-- When everything fits in one chunk, greedy packing packs it all. -/
theorem packGo_all (n : Nat) (acc : List Char) (us : List (List Char))
    (h : acc.length + us.flatten.length ≤ n) :
    packGo n acc us = [acc ++ us.flatten] := by
  induction us generalizing acc with
  | nil => simp [packGo]
  | cons u rest ih =>
    simp only [List.flatten_cons, List.length_append] at h
    rw [packGo, if_pos (by omega)]
    rw [ih (acc ++ u) (by simp only [List.length_append]; omega)]
    simp

/-- A non-empty unit list whose total fits within chunkSize packs to exactly
one chunk: the whole text. -/
theorem packGreedy_all (n : Nat) (us : List (List Char)) (hne : us ≠ [])
    (h : us.flatten.length ≤ n) :
    packGreedy n us = [us.flatten] := by
  cases us with
  | nil => exact absurd rfl hne
  | cons u rest =>
    simp only [List.flatten_cons, List.length_append] at h
    rw [packGreedy, packGo_all n u rest (by omega)]
    simp

/-- Boundary production drops no character. -/
theorem boundaries_flatten (n : Nat) (hn : 0 < n) (xs : List Char) :
    (boundaries n hn xs).flatten = xs := by
  rw [boundaries, packGreedy_flatten, pieces_flatten]

/-- The empty document produces no boundary. -/
theorem boundaries_nil (n : Nat) (hn : 0 < n) : boundaries n hn [] = [] := by
  rw [boundaries]
  simp only [separators]
  rw [pieces]
  simp [splitKeepSep, splitGo, packGreedy]

/-- Section 4.1 edge case at the boundary level: a non-empty document within
chunkSize yields a single boundary holding the whole text. -/
theorem boundaries_short (n : Nat) (hn : 0 < n) (xs : List Char)
    (hne : xs ≠ []) (hlen : xs.length ≤ n) :
    boundaries n hn xs = [xs] := by
  rw [boundaries]
  simp only [separators]
  rw [pieces_small n hn _ _ xs hlen]
  rw [packGreedy_all n _ (splitKeepSep_ne_nil _ xs hne)
    (by rw [splitKeepSep_flatten]; exact hlen)]
  rw [splitKeepSep_flatten]

/-- Concatenating the non-overlap regions of the built chunks recovers the
concatenation of the segments. -/
theorem buildChunks_nonOverlap_flatten (docId : String) (k : Nat)
    (prev : Option (List Char)) (idx : Nat) (segs : List (List Char)) :
    ((buildChunks docId k prev idx segs).map Chunk.nonOverlap).flatten = segs.flatten := by
  induction segs generalizing prev idx with
  | nil => cases prev <;> rfl
  | cons s rest ih =>
    cases prev with
    | none => simp [buildChunks, Chunk.nonOverlap, ih]
    | some p => simp [buildChunks, Chunk.nonOverlap, ih, List.drop_left]

/-- The chunk texts do not depend on the document id. -/
theorem buildChunks_text_id_free (d1 d2 : String) (k : Nat)
    (prev : Option (List Char)) (idx : Nat) (segs : List (List Char)) :
    (buildChunks d1 k prev idx segs).map Chunk.text =
      (buildChunks d2 k prev idx segs).map Chunk.text := by
  induction segs generalizing prev idx with
  | nil => cases prev <;> rfl
  | cons s rest ih => cases prev <;> simp [buildChunks, ih]

/-- Section 4.1 edge case: under the fixed configuration, a non-empty document
shorter than chunkSize splits into a single chunk with zero overlap. -/
theorem splitFixed_short_single_chunk (d : SourceDocument)
    (hne : d.content ≠ []) (hlen : d.content.length ≤ 1000) :
    splitFixed d = [{ sourceDocumentId := d.id, text := d.content,
                      sequenceIndex := 0, overlapWithPrevious := 0 }] := by
  rw [splitFixed, splitDoc, boundaries_short 1000 (by omega) d.content hne hlen]
  rfl

/-- Section 4.1 edge case: the empty document splits into no chunks. -/
theorem splitFixed_empty (d : SourceDocument) (h : d.content = []) :
    splitFixed d = [] := by
  rw [splitFixed, splitDoc, h, boundaries_nil]
  rfl

/-- C1 counterexample: with the loader succeeding on zero documents, the
pipeline does not fail — runIngestion returns the success summary reporting 0
chunks and the store receives no entry, refuting the claimed IngestionError. -/
theorem runIngestion_empty_succeeds_cex :
    runIngestion ((Except.ok [] : Except Unit (List Document))) (fun ds => ds)
      (fun _ => (0 : Nat)) ([] : List (Document × Nat)) =
      Except.ok (ingestionMessage 0, []) := by
  rfl

/-- C1 (amended): runIngestion performs no zero-document check; when the
source yields zero documents it returns the success summary reporting 0
chunks, and no vectors are written — the store is returned unchanged. -/
theorem runIngestion_empty_docs_success {ε α : Type}
    (splitter : List Document → List Document) (embed : Document → α)
    (store : List (Document × α)) (h : splitter [] = []) :
    runIngestion ((Except.ok [] : Except ε (List Document))) splitter embed store =
      Except.ok (ingestionMessage 0, store) := by
  simp [runIngestion, h, embedAndStore]

/-- C1 witness: the amended theorem applied at a concrete empty load. -/
theorem runIngestion_empty_docs_success_witness :
    runIngestion ((Except.ok [] : Except Unit (List Document))) (fun ds => ds)
      (fun _ => (0 : Nat)) ([] : List (Document × Nat)) =
      Except.ok (ingestionMessage 0, []) :=
  runIngestion_empty_docs_success (fun ds => ds) (fun _ => (0 : Nat)) [] rfl

/-- C2: the compiled graph has the fixed successor chain START to retrieve to
generate to END, so invoking it applies retrieve and then generate of the same
invocation, and the state generate observes carries exactly the documents the
retriever returned for this invocation's question. -/
theorem graph_retrieve_before_generate (retriever : String → List Document)
    (model : Prompt → String) (s : RAGState) :
    nextNode GraphNode.START = some GraphNode.retrieve ∧
    nextNode GraphNode.retrieve = some GraphNode.generate ∧
    nextNode GraphNode.generate = some GraphNode.END ∧
    graphInvoke retriever model s = generateNode model (retrieveNode retriever s) ∧
    (retrieveNode retriever s).documents = retriever s.question :=
  ⟨rfl, rfl, rfl, rfl, rfl⟩

/-- C3: chat on a service whose graph has not been compiled yet fails with the
not-initialized error; no answer value is produced. -/
theorem chat_uninitialized_fails (svc : ChatService) (q : String)
    (h : svc.graph = none) :
    svc.chat q = Except.error ChatError.notInitialized := by
  simp [ChatService.chat, h]

/-- C3 witness: chat on the uninitialized service state. -/
theorem chat_uninitialized_fails_witness :
    ChatService.chat { graph := none } "question" =
      Except.error ChatError.notInitialized :=
  chat_uninitialized_fails { graph := none } "question" rfl

/-- C4: chat with a compiled graph builds the fresh initial state of the given
question with empty documents and empty answer, runs it through the graph, and
returns the final answer, or the fixed placeholder when that answer is empty. -/
theorem chat_fresh_state_and_placeholder (g : RAGState → RAGState) (q : String) :
    ChatService.chat { graph := some g } q =
      Except.ok
        (if (g { question := q, documents := [], answer := "" }).answer = ""
          then "답변을 생성하지 못하였습니다."
          else (g { question := q, documents := [], answer := "" }).answer) := by
  rfl

/-- C5: when retrieval returns no documents the machine still completes
normally — generate runs on the empty document list and the prompt it renders
has an empty context block. -/
theorem empty_retrieval_generates (model : Prompt → String) (q : String) :
    graphInvoke (fun _ => []) model { question := q, documents := [], answer := "" } =
      { question := q, documents := [],
        answer := model { system := renderSystem "", human := q } } := by
  rfl

/-- C6: the retrieve node sets documents to the list the retriever returns for
the state's question and mutates nothing else — question and answer of the
output state equal those of the input state. -/
theorem retrieve_sets_documents_only (retriever : String → List Document)
    (s : RAGState) :
    (retrieveNode retriever s).documents = retriever s.question ∧
    (retrieveNode retriever s).question = s.question ∧
    (retrieveNode retriever s).answer = s.answer :=
  ⟨rfl, rfl, rfl⟩

/-- C7: the rendered prompt carries the question verbatim as the human turn
and the fixed system instruction (which embeds the fixed refusal sentence)
around a single context block; the context is the chunk texts joined in the
given order by one blank line — no chunk is reordered, dropped, truncated or
deduplicated, as the recurrence over the document list shows. -/
theorem prompt_assembly_spec (q ans : String) (docs : List Document) :
    (chainPrompt { question := q, documents := docs, answer := ans }).human = q ∧
    (chainPrompt { question := q, documents := docs, answer := ans }).system =
      systemInstruction ++ "\n\n<Context>\n" ++ formatContext docs ++ "\n</Context>" ∧
    formatContext [] = "" ∧
    (∀ d : Document, formatContext [d] = d.pageContent) ∧
    (∀ (d e : Document) (t : List Document),
      formatContext (d :: e :: t) =
        d.pageContent ++ "\n\n" ++ formatContext (e :: t)) :=
  ⟨rfl, rfl, rfl, fun _ => rfl, fun _ _ _ => rfl⟩

/-- C8: the Chroma configuration ingestion writes with equals the one chat
binds the retriever with — same collection name and same endpoint url. -/
theorem ingestion_chat_collection_agree :
    ingestionStoreConfig = chatRetrieverConfig ∧
    IngestionService.COLLECTION_NAME = ChatService.COLLECTION_NAME ∧
    ingestionChromaUrl = chatChromaUrl :=
  ⟨rfl, rfl, rfl⟩

/-- C9: under the fixed configuration (chunkSize 1000, chunkOverlap 200),
concatenating the non-overlap regions of the chunks in order reconstructs the
document text exactly; repeating the split yields an identical chunk sequence,
and the chunk texts depend only on the document content. -/
theorem split_lossless_deterministic (d : SourceDocument) :
    ((splitFixed d).map Chunk.nonOverlap).flatten = d.content ∧
    splitFixed d = splitFixed d ∧
    ∀ d2 : SourceDocument, d2.content = d.content →
      (splitFixed d2).map Chunk.text = (splitFixed d).map Chunk.text := by
  refine ⟨?_, rfl, ?_⟩
  · rw [splitFixed, splitDoc, buildChunks_nonOverlap_flatten, boundaries_flatten]
  · intro d2 h
    rw [splitFixed, splitDoc, splitFixed, splitDoc, h]
    exact buildChunks_text_id_free d2.id d.id 200 none 0 _

/-- C9 witness: the theorem applied to a concrete short document, with a
second document of equal content but different id. -/
theorem split_lossless_deterministic_witness :
    ((splitFixed parisDoc0).map Chunk.nonOverlap).flatten =
      "Paris is the capital of France.".toList ∧
    (splitFixed parisDoc1).map Chunk.text = (splitFixed parisDoc0).map Chunk.text :=
  ⟨(split_lossless_deterministic parisDoc0).1,
   (split_lossless_deterministic parisDoc0).2.2 parisDoc1 rfl⟩

/-- C10: the chain reads only question and documents, so two states agreeing
on those render the same prompt and generate the same answer for a fixed
model, whatever their incoming answer fields were. -/
theorem generate_ignores_prior_answer (model : Prompt → String) (s1 s2 : RAGState)
    (hq : s1.question = s2.question) (hd : s1.documents = s2.documents) :
    chainPrompt ⟨s1.question, s1.documents, strOr s1.answer ""⟩ =
      chainPrompt ⟨s2.question, s2.documents, strOr s2.answer ""⟩ ∧
    (generateNode model s1).answer = (generateNode model s2).answer := by
  constructor
  · simp [chainPrompt, hq, hd]
  · simp [generateNode, ragChain, chainPrompt, hq, hd]

/-- C10 witness: two states with the same question and documents but different
prior answers generate the same answer. -/
theorem generate_ignores_prior_answer_witness :
    (generateNode (fun _ => "ok")
      { question := "q", documents := [], answer := "old" }).answer =
    (generateNode (fun _ => "ok")
      { question := "q", documents := [], answer := "" }).answer :=
  (generate_ignores_prior_answer (fun _ => "ok")
    { question := "q", documents := [], answer := "old" }
    { question := "q", documents := [], answer := "" } rfl rfl).2
